import Mathlib

/-!
Verification of the schema/bootstrap module `database.py` of the e-voting
repository (srinukaranam/e-voting), as a shallow embedding in Lean 4.

The module has four operations:
* `get_db`    — choose a backend from the process environment (local SQLite
                file vs. hosted PostgreSQL via DATABASE_URL, with the legacy
                `postgres://` scheme rewritten to `postgresql://`);
* `hash_password` — a single unsalted pass of SHA-256, hex digest;
* `init_db`   — create seven tables, seed 25 constituency rows
                (insert-if-absent on the unique name), seed a default admin
                guarded by a `SELECT ... WHERE username = admin` check,
                then a single `commit` at the end;
* `get_constituencies` — `SELECT name FROM constituencies ORDER BY name`.

The embedding models the database as lists of rows (auto-generated
`id SERIAL` and `created_at` columns are omitted: no claim mentions them),
statements as pure state transformers, and the transaction as an explicit
committed/pending pair so that the placement of the final `commit` is
visible.  SHA-256 is implemented in full over `Nat` with explicit
`% 2^32` wrap-around, following FIPS 180-4, because the source calls
`hashlib.sha256`.
-/

/-! ## Process environment and connection selection (`get_db`) -/

/-- The two environment variables `get_db` consults: `RENDER` and
`DATABASE_URL`.  `none` models an unset variable. -/
structure PyEnv where
  RENDER : Option String
  DATABASE_URL : Option String
deriving DecidableEq

/-- A database handle: either the embedded SQLite store (with its file name)
or a PostgreSQL connection (with the URL actually passed to `connect`). -/
inductive Conn where
  | sqlite (file : String)
  | postgres (url : String)
deriving DecidableEq

/-- Exceptions `get_db` can raise: `attributeError` models Python's
`AttributeError` from calling `.startswith` on `None` when `DATABASE_URL`
is absent on the hosted branch. -/
inductive PyError where
  | attributeError
deriving DecidableEq

/-- Python `s.startswith(pat)`. -/
def pyStartsWith (s pat : String) : Bool :=
  decide (s.data.take pat.data.length = pat.data)

/-- Python `s.replace(pat, rep, 1)` on lists of characters: replace the
first (leftmost) occurrence of `pat`, leaving the rest of the string –
including any later occurrence – unchanged. -/
def listReplaceFirst (pat rep : List Char) : List Char → List Char
  | [] => if pat = [] then rep else []
  | c :: cs =>
    if (c :: cs).take pat.length = pat then rep ++ (c :: cs).drop pat.length
    else c :: listReplaceFirst pat rep cs

/-- Python `s.replace(pat, rep, 1)` on strings. -/
def pyReplaceFirst (s pat rep : String) : String :=
  ⟨listReplaceFirst pat.data rep.data s.data⟩

/-- The URL normalization inside `get_db`: if the connection string starts
with the legacy `postgres://` scheme, rewrite the first occurrence to
`postgresql://`. -/
def normalizeUrl (url : String) : String :=
  if pyStartsWith url "postgres://" then pyReplaceFirst url "postgres://" "postgresql://"
  else url

/-- Function `get_db` from database.py: if neither `RENDER` nor `DATABASE_URL` is set,
open the local SQLite file `voting_system.db`; otherwise read
`DATABASE_URL` (raising `AttributeError` if it is absent, since
`None.startswith` is called), normalize the legacy scheme and connect to
PostgreSQL.  The `except` clause of the source logs and re-raises, so
errors propagate unchanged. -/
def get_db (env : PyEnv) : Except PyError Conn :=
  if env.RENDER = none ∧ env.DATABASE_URL = none then
    .ok (.sqlite "voting_system.db")
  else
    match env.DATABASE_URL with
    | none => .error .attributeError
    | some url => .ok (.postgres (normalizeUrl url))

/-! ## SHA-256 (`hashlib.sha256(...).hexdigest()`), FIPS 180-4 over `Nat` -/

/-- Wrap to a 32-bit word. -/
def w32 (n : Nat) : Nat := n % 4294967296

/-- Rotate a 32-bit word right by n bit positions. -/
def rotr32 (n x : Nat) : Nat := w32 ((x >>> n) ||| (x <<< (32 - n)))

/-- SHA-256 initial hash value (FIPS 180-4 §5.3.3). -/
def sha_h0 : List Nat :=
  [1779033703, 3144134277, 1013904242, 2773480762,
   1359893119, 2600822924, 528734635, 1541459225]

/-- SHA-256 round constants (FIPS 180-4 §4.2.2). -/
def sha_k : List Nat :=
  [1116352408, 1899447441, 3049323471, 3921009573,
   961987163, 1508970993, 2453635748, 2870763221,
   3624381080, 310598401, 607225278, 1426881987,
   1925078388, 2162078206, 2614888103, 3248222580,
   3835390401, 4022224774, 264347078, 604807628,
   770255983, 1249150122, 1555081692, 1996064986,
   2554220882, 2821834349, 2952996808, 3210313671,
   3336571891, 3584528711, 113926993, 338241895,
   666307205, 773529912, 1294757372, 1396182291,
   1695183700, 1986661051, 2177026350, 2456956037,
   2730485921, 2820302411, 3259730800, 3345764771,
   3516065817, 3600352804, 4094571909, 275423344,
   430227734, 506948616, 659060556, 883997877,
   958139571, 1322822218, 1537002063, 1747873779,
   1955562222, 2024104815, 2227730452, 2361852424,
   2428436474, 2756734187, 3204031479, 3329325298]

/-- Pad a byte string: append 0x80, then zeros, then the bit length as an
8-byte big-endian integer, reaching a multiple of 64 bytes. -/
def padMessage (msg : List Nat) : List Nat :=
  msg ++ [0x80] ++ List.replicate ((119 - msg.length % 64) % 64) 0
    ++ (List.range 8).map (fun i => ((msg.length * 8) >>> (8 * (7 - i))) % 256)

/-- Big-endian conversion of bytes to 32-bit words. -/
def bytesToWords : List Nat → List Nat
  | b0 :: b1 :: b2 :: b3 :: rest =>
    ((((b0 <<< 8) ||| b1) <<< 8 ||| b2) <<< 8 ||| b3) :: bytesToWords rest
  | _ => []

/-- One extension step of the message schedule: append W[t] computed from
W[t-2], W[t-7], W[t-15] and W[t-16]. -/
def scheduleStep (w : List Nat) : List Nat :=
  let n := w.length
  let x15 := w.getD (n - 15) 0
  let x2 := w.getD (n - 2) 0
  let s0 := rotr32 7 x15 ^^^ rotr32 18 x15 ^^^ (x15 >>> 3)
  let s1 := rotr32 17 x2 ^^^ rotr32 19 x2 ^^^ (x2 >>> 10)
  w ++ [w32 (w.getD (n - 16) 0 + s0 + w.getD (n - 7) 0 + s1)]

/-- Extend a 16-word block to the 64-word message schedule. -/
def messageSchedule (block : List Nat) : List Nat :=
  (List.range 48).foldl (fun w _ => scheduleStep w) block

/-- One SHA-256 compression round on the 8-word working state, given
K[t] + W[t] already summed. -/
def shaRound (st : List Nat) (kw : Nat) : List Nat :=
  match st with
  | [a, b, c, d, e, f, g, h] =>
    let s1 := rotr32 6 e ^^^ rotr32 11 e ^^^ rotr32 25 e
    let ch := (e &&& f) ^^^ ((e ^^^ 0xffffffff) &&& g)
    let t1 := w32 (h + s1 + ch + kw)
    let s0 := rotr32 2 a ^^^ rotr32 13 a ^^^ rotr32 22 a
    let mj := (a &&& b) ^^^ (a &&& c) ^^^ (b &&& c)
    let t2 := w32 (s0 + mj)
    [w32 (t1 + t2), a, b, c, w32 (d + t1), e, f, g]
  | other => other

/-- Compress one 16-word block into the running 8-word hash value. -/
def compressBlock (h : List Nat) (block : List Nat) : List Nat :=
  let kw := (sha_k.zip (messageSchedule block)).map (fun p => w32 (p.1 + p.2))
  let st := kw.foldl shaRound h
  (h.zip st).map (fun p => w32 (p.1 + p.2))

/-- Words of the padded message. -/
def paddedWords (msg : List Nat) : List Nat := bytesToWords (padMessage msg)

/-- SHA-256 of a byte string, as the final 8-word hash value. -/
def sha256Words (msg : List Nat) : List Nat :=
  (List.range ((paddedWords msg).length / 16)).foldl
    (fun h i => compressBlock h (((paddedWords msg).drop (16 * i)).take 16)) sha_h0

/-- The sixteen lowercase hexadecimal digits. -/
def hexDigitChars : List Char := "0123456789abcdef".data

/-- Hexadecimal digit for a value (taken mod 16). -/
def hexChar (n : Nat) : Char := hexDigitChars.getD (n % 16) '0'

/-- Eight hex characters of a 32-bit word, most significant first. -/
def wordToHex (w : Nat) : List Char :=
  (List.range 8).map (fun i => hexChar (w >>> (4 * (7 - i))))

/-- Lowercase hex digest of a word list (Python's `.hexdigest()`). -/
def hexDigest (ws : List Nat) : String :=
  ⟨ws.foldr (fun w acc => wordToHex w ++ acc) []⟩

/-- UTF-8 bytes of one character (Python `str.encode()` is UTF-8). -/
def utf8Bytes (c : Char) : List Nat :=
  let n := c.toNat
  if n < 0x80 then [n]
  else if n < 0x800 then
    [0xc0 ||| (n >>> 6), 0x80 ||| (n &&& 0x3f)]
  else if n < 0x10000 then
    [0xe0 ||| (n >>> 12), 0x80 ||| ((n >>> 6) &&& 0x3f), 0x80 ||| (n &&& 0x3f)]
  else
    [0xf0 ||| (n >>> 18), 0x80 ||| ((n >>> 12) &&& 0x3f),
     0x80 ||| ((n >>> 6) &&& 0x3f), 0x80 ||| (n &&& 0x3f)]

/-- UTF-8 encoding of a string, as a byte list. -/
def encodeUtf8 (s : String) : List Nat :=
  s.data.foldr (fun c acc => utf8Bytes c ++ acc) []

/-- Function `hash_password` from database.py: one unsalted, un-iterated SHA-256
pass over the UTF-8 encoded plaintext, rendered as a hex digest. -/
def hash_password (password : String) : String :=
  hexDigest (sha256Words (encodeUtf8 password))

/-! ## The database state: seven tables as lists of rows.
Auto-generated columns (`id SERIAL`, `created_at TIMESTAMP DEFAULT ...`,
`voted_at`) are omitted: they are filled in by the engine and no claim
mentions them.  Foreign-key columns are plain `Nat` ids. -/

/-- A row of `constituencies` (`name` is UNIQUE NOT NULL). -/
structure ConstituencyRow where
  name : String
  state : String
deriving DecidableEq

/-- A row of `voters` (`email` is UNIQUE NOT NULL). -/
structure VoterRow where
  name : String
  email : String
  password : String
  constituency : String
  is_verified : Bool
deriving DecidableEq

/-- A row of `admins` (`username` is UNIQUE NOT NULL). -/
structure AdminRow where
  username : String
  password : String
deriving DecidableEq

/-- A row of `candidates`. -/
structure CandidateRow where
  name : String
  party : String
  constituency : String
  photo_path : Option String
  symbol_path : Option String
deriving DecidableEq

/-- A row of `elections`. -/
structure ElectionRow where
  title : String
  description : Option String
  constituency : String
  start_time : Nat
  end_time : Nat
  status : String
deriving DecidableEq

/-- A row of `votes` (UNIQUE(voter_id, election_id)). -/
structure VoteRow where
  voter_id : Nat
  election_id : Nat
  candidate_id : Nat
deriving DecidableEq

/-- A row of `audit_logs`. -/
structure AuditLogRow where
  action : String
  user_type : String
  user_id : Nat
  ip_address : Option String
  user_agent : Option String
  details : Option String
deriving DecidableEq

/-- The database: contents of the seven tables. -/
structure DB where
  constituencies : List ConstituencyRow
  voters : List VoterRow
  admins : List AdminRow
  candidates : List CandidateRow
  elections : List ElectionRow
  votes : List VoteRow
  audit_logs : List AuditLogRow
deriving DecidableEq

/-- The freshly created, still empty database. -/
def emptyDB : DB := ⟨[], [], [], [], [], [], []⟩

/-- Row counts of the seven tables, in schema order. -/
def tableCounts (db : DB) : List Nat :=
  [db.constituencies.length, db.voters.length, db.admins.length,
   db.candidates.length, db.elections.length, db.votes.length,
   db.audit_logs.length]

/-! ## Statements issued by `init_db` -/

/-- The 25 Andhra Pradesh constituency names seeded by `init_db`, in
source order. -/
def apConstituencies : List String :=
  ["Araku", "Srikakulam", "Vizianagaram", "Visakhapatnam",
   "Anakapalli", "Kakinada", "Amalapuram", "Rajahmundry",
   "Narasapuram", "Eluru", "Machilipatnam", "Vijayawada",
   "Guntur", "Narasaraopet", "Bapatla", "Ongole",
   "Nandyal", "Kurnool", "Anantapur", "Hindupur",
   "Kadapa", "Nellore", "Tirupati", "Rajampet",
   "Chittoor"]

/-- Does a constituency row with this name exist (the UNIQUE(name) lookup
behind ON CONFLICT)? -/
def hasConstituencyName (rows : List ConstituencyRow) (nm : String) : Bool :=
  rows.any (fun r => decide (r.name = nm))

/-- Statement `INSERT INTO constituencies (name, state) VALUES (..) ON CONFLICT
(name) DO NOTHING`: append the row unless a row with this name already exists. -/
def insertConstituencyIfAbsent (rows : List ConstituencyRow) (nm st : String) :
    List ConstituencyRow :=
  if hasConstituencyName rows nm then rows else rows ++ [⟨nm, st⟩]

/-- Effect on the `constituencies` table of the 25 seeding inserts. -/
def seedConstituencyRows (rows : List ConstituencyRow) : List ConstituencyRow :=
  apConstituencies.foldl
    (fun r nm => insertConstituencyIfAbsent r nm "Andhra Pradesh") rows

/-- Query `SELECT * FROM admins WHERE username = admin` followed by
`fetchone()`: does a row with username `admin` exist?  (Note: the code
checks for this specific username, not for table emptiness.) -/
def defaultAdminPresent (rows : List AdminRow) : Bool :=
  rows.any (fun r => decide (r.username = "admin"))

/-- The guarded default-admin insert of `init_db`: insert
(`admin`, `hash_password "admin123"`) only when the check found nothing. -/
def seedAdminRows (rows : List AdminRow) : List AdminRow :=
  if defaultAdminPresent rows then rows
  else rows ++ [⟨"admin", hash_password "admin123"⟩]

/-! ## Transaction trace model.
A connection holds a `committed` snapshot (what other readers and a caller
that sees an exception observe) and a `pending` working state.  SQL
statements transform `pending`; `commit` publishes `pending`. -/

/-- One operation on a transactional connection. -/
inductive TxOp where
  | stmt (f : DB → DB)
  | commit

/-- Transactional connection state. -/
structure TxState where
  committed : DB
  pending : DB

/-- Apply one operation. -/
def applyOp (s : TxState) : TxOp → TxState
  | .stmt f => ⟨s.committed, f s.pending⟩
  | .commit => ⟨s.pending, s.pending⟩

/-- Run a sequence of operations. -/
def runOps (ops : List TxOp) (s : TxState) : TxState := ops.foldl applyOp s

/-- The seven `CREATE TABLE IF NOT EXISTS` statements.  On the row contents
modelled here they are identity maps: creating a (possibly already
existing) empty table changes no row of any table. -/
def createTableOps : List TxOp := List.replicate 7 (.stmt id)

/-- One constituency seeding insert as a statement. -/
def constituencyStmt (nm : String) : TxOp :=
  .stmt (fun db =>
    { db with constituencies := insertConstituencyIfAbsent db.constituencies nm "Andhra Pradesh" })

/-- The 25 constituency seeding inserts, one statement per name. -/
def seedConstituencyOps : List TxOp := apConstituencies.map constituencyStmt

/-- The admin existence check plus the conditional insert, as one
state transformer (the SELECT itself does not modify state). -/
def seedAdminOp : TxOp := .stmt (fun db => { db with admins := seedAdminRows db.admins })

/-- Every statement `init_db` executes before its single `commit`. -/
def init_db_stmts : List TxOp := createTableOps ++ seedConstituencyOps ++ [seedAdminOp]

/-- The full operation sequence of `init_db`: all statements, then one
`db.commit()` as the last operation. -/
def init_db_ops : List TxOp := init_db_stmts ++ [TxOp.commit]

/-- Function `init_db` from database.py: run the statement sequence on a fresh
connection over database `db` and return the committed result. -/
def init_db (db : DB) : DB := (runOps init_db_ops ⟨db, db⟩).committed

/-! ## `get_constituencies` and vote insertion -/

/-- Lexicographic (code-point / byte) order on character lists, the order
`ORDER BY name` uses for these ASCII names. -/
def lexLe : List Char → List Char → Bool
  | [], _ => true
  | _ :: _, [] => false
  | a :: as, b :: bs =>
    if a.toNat < b.toNat then true
    else if b.toNat < a.toNat then false
    else lexLe as bs

/-- Ascending lexical order on strings. -/
def strLe (a b : String) : Bool := lexLe a.data b.data

/-- Strict lexical order on strings. -/
def strLt (a b : String) : Bool := strLe a b && decide (a ≠ b)

/-- Query `SELECT name FROM constituencies ORDER BY name`: the names of all
constituency rows, sorted ascending (lexical order on strings). -/
def get_constituencies (db : DB) : List String :=
  List.insertionSort (fun a b => strLe a b = true)
    (db.constituencies.map ConstituencyRow.name)

/-- Running `get_constituencies` as a full operation on the connection: the single
SELECT statement reads the state and modifies nothing, so the operation
returns the untouched database together with the name list. -/
def get_constituencies_run (db : DB) : DB × List String :=
  (db, get_constituencies db)

/-- Does inserting `v` violate `UNIQUE(voter_id, election_id)`? -/
def voteConflict (rows : List VoteRow) (v : VoteRow) : Bool :=
  rows.any (fun u =>
    decide (u.voter_id = v.voter_id) && decide (u.election_id = v.election_id))

/-- Statement `INSERT INTO votes (voter_id, election_id, candidate_id)`
under the schema of database.py: the engine rejects the row with a
uniqueness violation when a row with the same (voter_id, election_id)
pair exists, and appends it otherwise. -/
def insertVote (db : DB) (v : VoteRow) : Except String DB :=
  if voteConflict db.votes v then
    .error "UNIQUE constraint failed: votes.voter_id, votes.election_id"
  else .ok { db with votes := db.votes ++ [v] }

/-- The state after an attempted vote insert: a rejected INSERT leaves the
table unchanged. -/
def tryInsertVote (db : DB) (v : VoteRow) : DB :=
  match insertVote db v with
  | .ok db2 => db2
  | .error _ => db

/-! ## Concrete states used to instantiate the theorems -/

/-- A database holding exactly one vote: voter 1, election 1, candidate 1. -/
def dbOneVote : DB := { emptyDB with votes := [⟨1, 1, 1⟩] }

/-- A database whose admins table is nonempty but holds no row with
username admin. -/
def dbWithOtherAdmin : DB := { emptyDB with admins := [⟨"bob", "pw"⟩] }

/-- A database already holding a row with username admin. -/
def dbWithDefaultAdmin : DB := { emptyDB with admins := [⟨"admin", "h"⟩] }

/-- An environment with the hosted marker set but no connection string. -/
def envRenderOnly : PyEnv := ⟨some "true", none⟩

/-! ## Lemmas: what `init_db` computes, and its idempotence -/

theorem runOps_append (l1 l2 : List TxOp) (s : TxState) :
    runOps (l1 ++ l2) s = runOps l2 (runOps l1 s) := by
  simp [runOps, List.foldl_append]

theorem runOps_constituencyStmts (l : List String) (s : TxState) :
    runOps (l.map constituencyStmt) s =
      ⟨s.committed,
       { s.pending with constituencies :=
           (l.foldl (fun r nm => insertConstituencyIfAbsent r nm "Andhra Pradesh")
             s.pending.constituencies) }⟩ := by
  induction l generalizing s with
  | nil => rfl
  | cons nm l ih =>
    rw [List.map_cons]
    have h1 : runOps (constituencyStmt nm :: l.map constituencyStmt) s
        = runOps (l.map constituencyStmt) (applyOp s (constituencyStmt nm)) := rfl
    rw [h1, ih]
    rfl

/-- Running all of `init_db` on a connection over `db` commits exactly the
seeded constituency table and the guarded admin seed; no other table
changes. -/
theorem init_db_eq (db : DB) :
    init_db db = { db with constituencies := seedConstituencyRows db.constituencies,
                           admins := seedAdminRows db.admins } := by
  show (runOps init_db_ops ⟨db, db⟩).committed = _
  rw [init_db_ops, init_db_stmts, seedConstituencyOps, runOps_append, runOps_append,
    runOps_append]
  have hcreate : runOps createTableOps ⟨db, db⟩ = ⟨db, db⟩ := rfl
  rw [hcreate, runOps_constituencyStmts]
  simp only [runOps, seedAdminOp, applyOp, List.foldl_cons, List.foldl_nil]
  rfl

theorem hasName_insert_self (rows : List ConstituencyRow) (nm st : String) :
    hasConstituencyName (insertConstituencyIfAbsent rows nm st) nm = true := by
  unfold insertConstituencyIfAbsent
  cases h : hasConstituencyName rows nm with
  | true => simpa using h
  | false => simp [hasConstituencyName, List.any_append, h]

theorem hasName_insert_mono (rows : List ConstituencyRow) (nm2 st nm : String)
    (h : hasConstituencyName rows nm = true) :
    hasConstituencyName (insertConstituencyIfAbsent rows nm2 st) nm = true := by
  unfold insertConstituencyIfAbsent
  cases h2 : hasConstituencyName rows nm2 with
  | true => simpa using h
  | false => simp [hasConstituencyName] at h ⊢; simp [List.any_append, h, hasConstituencyName]

theorem fold_hasName_mono (l : List String) (rows : List ConstituencyRow) (nm : String)
    (h : hasConstituencyName rows nm = true) :
    hasConstituencyName
      (l.foldl (fun r n => insertConstituencyIfAbsent r n "Andhra Pradesh") rows) nm = true := by
  induction l generalizing rows with
  | nil => exact h
  | cons n l ih => exact ih _ (hasName_insert_mono rows n _ nm h)

theorem fold_hasName_of_mem (l : List String) (nm : String) :
    ∀ rows : List ConstituencyRow, nm ∈ l →
    hasConstituencyName
      (l.foldl (fun r n => insertConstituencyIfAbsent r n "Andhra Pradesh") rows) nm = true := by
  induction l with
  | nil => intro rows h; cases h
  | cons n l ih =>
    intro rows h
    rcases List.mem_cons.mp h with rfl | h2
    · exact fold_hasName_mono l _ nm (hasName_insert_self rows nm _)
    · exact ih _ h2

theorem insert_of_hasName (rows : List ConstituencyRow) (nm st : String)
    (h : hasConstituencyName rows nm = true) :
    insertConstituencyIfAbsent rows nm st = rows := by
  simp [insertConstituencyIfAbsent, h]

theorem fold_insert_of_all (l : List String) (rows : List ConstituencyRow)
    (h : ∀ nm ∈ l, hasConstituencyName rows nm = true) :
    l.foldl (fun r n => insertConstituencyIfAbsent r n "Andhra Pradesh") rows = rows := by
  induction l with
  | nil => rfl
  | cons n l ih =>
    rw [List.foldl_cons, insert_of_hasName rows n _ (h n (List.mem_cons_self n l))]
    exact ih (fun nm hm => h nm (List.mem_cons_of_mem n hm))

/-- Seeding the constituency table twice is the same as seeding it once. -/
theorem seedConstituencyRows_idem (rows : List ConstituencyRow) :
    seedConstituencyRows (seedConstituencyRows rows) = seedConstituencyRows rows := by
  unfold seedConstituencyRows
  exact fold_insert_of_all _ _ (fun nm hm => fold_hasName_of_mem apConstituencies nm rows hm)

/-- After the guarded admin seed, a row with username admin is present. -/
theorem seedAdminRows_present (rows : List AdminRow) :
    defaultAdminPresent (seedAdminRows rows) = true := by
  unfold seedAdminRows
  cases h : defaultAdminPresent rows with
  | true => simpa using h
  | false => simp [defaultAdminPresent, List.any_append]

/-- Seeding the admin table twice is the same as seeding it once. -/
theorem seedAdminRows_idem (rows : List AdminRow) :
    seedAdminRows (seedAdminRows rows) = seedAdminRows rows := by
  conv_lhs => rw [seedAdminRows]
  simp [seedAdminRows_present rows]

/-- Running `init_db` a second time changes nothing. -/
theorem init_db_idem (db : DB) : init_db (init_db db) = init_db db := by
  have h1 : (init_db db).constituencies = seedConstituencyRows db.constituencies := by
    rw [init_db_eq]
  have h2 : (init_db db).admins = seedAdminRows db.admins := by
    rw [init_db_eq]
  rw [init_db_eq (init_db db), h1, h2, seedConstituencyRows_idem, seedAdminRows_idem,
    init_db_eq db]

/-! ## C1: idempotence of repeated initialization -/

/-- C1: for every N at least 1, running `init_db` N times in succession
against the initially-empty database leaves the same final row counts in
every table as running it once: the constituency seeding is
insert-if-absent and the default-admin insert is guarded by an existence
check, so runs after the first change nothing. -/
theorem init_db_n_runs_eq_one_run (n : Nat) (h : 1 ≤ n) :
    tableCounts (init_db^[n] emptyDB) = tableCounts (init_db emptyDB) := by
  obtain ⟨m, rfl⟩ : ∃ m, n = m + 1 := ⟨n - 1, by omega⟩
  rw [Function.iterate_succ_apply, Function.iterate_fixed (init_db_idem emptyDB) m]

/-- Witness for C1: three runs give the same row counts as one, namely
25 constituencies, one admin and nothing else. -/
theorem init_db_n_runs_eq_one_run_witness :
    tableCounts (init_db^[3] emptyDB) = tableCounts (init_db emptyDB) ∧
    tableCounts (init_db emptyDB) = [25, 0, 1, 0, 0, 0, 0] :=
  ⟨init_db_n_runs_eq_one_run 3 (by decide), by decide⟩

/-! ## C2: the constituency lister after initialization -/

/-- C2: after `init_db` has run at least once on the initially-empty
database, `get_constituencies` returns exactly the 25 seeded constituency
names, each exactly once (a permutation of the seed list, which is
duplicate-free), sorted strictly ascending in lexical order, regardless of
how many times `init_db` ran. -/
theorem get_constituencies_after_init (n : Nat) (h : 1 ≤ n) :
    List.Perm (get_constituencies (init_db^[n] emptyDB)) apConstituencies ∧
    List.Sorted (fun a b : String => strLt a b = true)
      (get_constituencies (init_db^[n] emptyDB)) := by
  obtain ⟨m, rfl⟩ : ∃ m, n = m + 1 := ⟨n - 1, by omega⟩
  rw [Function.iterate_succ_apply, Function.iterate_fixed (init_db_idem emptyDB) m]
  constructor
  · decide
  · decide

/-- Witness for C2: after two runs the lister returns the 25 names, each
once, strictly sorted. -/
theorem get_constituencies_after_init_witness :
    List.Perm (get_constituencies (init_db^[2] emptyDB)) apConstituencies ∧
    List.Sorted (fun a b : String => strLt a b = true)
      (get_constituencies (init_db^[2] emptyDB)) :=
  get_constituencies_after_init 2 (by decide)

/-! ## C4: the admin seed guard checks for username admin, not emptiness -/

/-- Counterexample to C4 as stated: `dbWithOtherAdmin` already contains one
row in the admins table (username bob), yet `init_db` still inserts the
default admin row, growing the table to two rows.  The guard queries for
username admin specifically, not for an arbitrary existing row. -/
theorem init_db_admin_guard_cex :
    dbWithOtherAdmin.admins.length = 1 ∧
    (init_db dbWithOtherAdmin).admins.length = 2 := by
  constructor
  · rfl
  · rw [init_db_eq]
    decide

/-- C4 (amended): `init_db` inserts the default administrator row only if
no row with username admin exists yet; for every database state already
containing a row with username admin, `init_db` leaves the admins table
unchanged. -/
theorem init_db_preserves_existing_admin (db : DB)
    (h : defaultAdminPresent db.admins = true) :
    (init_db db).admins = db.admins := by
  have h2 : (init_db db).admins = seedAdminRows db.admins := by rw [init_db_eq]
  rw [h2]
  simp [seedAdminRows, h]

/-- Witness for C4 (amended): a database already holding a row with
username admin is left unchanged. -/
theorem init_db_preserves_existing_admin_witness :
    (init_db dbWithDefaultAdmin).admins = dbWithDefaultAdmin.admins :=
  init_db_preserves_existing_admin dbWithDefaultAdmin (by decide)

/-! ## C5 and C9: backend selection and the missing-URL failure -/

/-- Counterexample to C5 as stated: with the hosted marker RENDER set and
DATABASE_URL absent, `get_db` does not connect to the hosted relational
service; it raises an AttributeError (calling startswith on None). -/
theorem get_db_backend_selection_cex :
    get_db envRenderOnly = .error PyError.attributeError := rfl

/-- C5 (amended): if neither RENDER nor DATABASE_URL is present, `get_db`
returns a handle to the embedded local store `voting_system.db`; in every
other environment in which DATABASE_URL is present it connects to the
hosted service using the normalized URL; when RENDER is set but
DATABASE_URL is absent it raises instead of connecting or falling back. -/
theorem get_db_backend_selection (env : PyEnv) :
    (env.RENDER = none → env.DATABASE_URL = none →
      get_db env = .ok (.sqlite "voting_system.db")) ∧
    (∀ url, env.DATABASE_URL = some url →
      get_db env = .ok (.postgres (normalizeUrl url))) ∧
    (env.RENDER ≠ none → env.DATABASE_URL = none →
      get_db env = .error .attributeError) := by
  obtain ⟨r, u⟩ := env
  refine ⟨?_, ?_, ?_⟩
  · rintro rfl rfl
    rfl
  · rintro url hu
    cases hu
    cases r with
    | none => rfl
    | some rv => rfl
  · intro hr hu
    cases hu
    cases r with
    | none => exact absurd rfl hr
    | some rv => rfl

/-- Witness for C5 (amended): the three branches at concrete
environments. -/
theorem get_db_backend_selection_witness :
    get_db ⟨none, none⟩ = .ok (.sqlite "voting_system.db") ∧
    get_db ⟨some "1", some "postgres://h/db"⟩
      = .ok (.postgres (normalizeUrl "postgres://h/db")) ∧
    get_db ⟨some "1", none⟩ = .error .attributeError :=
  ⟨(get_db_backend_selection ⟨none, none⟩).1 rfl rfl,
   (get_db_backend_selection ⟨some "1", some "postgres://h/db"⟩).2.1
     "postgres://h/db" rfl,
   (get_db_backend_selection ⟨some "1", none⟩).2.2 (by simp) rfl⟩

/-- C9: when the hosted-environment marker RENDER is set but DATABASE_URL
is absent, `get_db` performs no upfront validation and no fallback to the
local store: it raises the null-reference error to the caller. -/
theorem get_db_render_without_url_raises (r : String) :
    get_db ⟨some r, none⟩ = .error PyError.attributeError := rfl

/-! ## C3: at most one vote per (voter, election) pair -/

/-- C3: if some vote by voter `w.voter_id` in election `w.election_id` is
already stored, inserting any vote with that same (voter, election) pair
fails with a uniqueness violation and leaves the votes table unchanged,
while a vote by the same voter in a different election (one for which no
conflicting pair is stored) is accepted and appended. -/
theorem vote_unique_per_voter_election (db : DB) (w : VoteRow) (hw : w ∈ db.votes)
    (v : VoteRow) :
    (v.voter_id = w.voter_id → v.election_id = w.election_id →
      insertVote db v
          = .error "UNIQUE constraint failed: votes.voter_id, votes.election_id" ∧
        tryInsertVote db v = db) ∧
    (voteConflict db.votes v = false →
      insertVote db v = .ok { db with votes := db.votes ++ [v] } ∧
        tryInsertVote db v = { db with votes := db.votes ++ [v] }) := by
  constructor
  · intro h1 h2
    have hc : voteConflict db.votes v = true := by
      unfold voteConflict
      rw [List.any_eq_true]
      exact ⟨w, hw, by simp [h1, h2]⟩
    constructor
    · simp [insertVote, hc]
    · simp [tryInsertVote, insertVote, hc]
  · intro hc
    constructor
    · simp [insertVote, hc]
    · simp [tryInsertVote, insertVote, hc]

/-- Witness for C3: with one stored vote (voter 1, election 1), a second
vote by voter 1 in election 1 for a different candidate is rejected and
the table is unchanged, while a vote by voter 1 in election 2 is
appended. -/
theorem vote_unique_per_voter_election_witness :
    (insertVote dbOneVote ⟨1, 1, 2⟩
        = .error "UNIQUE constraint failed: votes.voter_id, votes.election_id" ∧
      tryInsertVote dbOneVote ⟨1, 1, 2⟩ = dbOneVote) ∧
    (insertVote dbOneVote ⟨1, 2, 2⟩
        = .ok { dbOneVote with votes := dbOneVote.votes ++ [⟨1, 2, 2⟩] } ∧
      tryInsertVote dbOneVote ⟨1, 2, 2⟩
        = { dbOneVote with votes := dbOneVote.votes ++ [⟨1, 2, 2⟩] }) :=
  ⟨(vote_unique_per_voter_election dbOneVote ⟨1, 1, 1⟩ (by decide) ⟨1, 1, 2⟩).1 rfl rfl,
   (vote_unique_per_voter_election dbOneVote ⟨1, 1, 1⟩ (by decide) ⟨1, 2, 2⟩).2 (by decide)⟩

/-! ## C8: a single commit at the very end of initialization -/

theorem runOps_no_commit (ops : List TxOp) :
    ∀ s : TxState, (∀ op ∈ ops, ∃ f, op = TxOp.stmt f) →
    (runOps ops s).committed = s.committed := by
  induction ops with
  | nil => intro s _; rfl
  | cons op ops ih =>
    intro s h
    obtain ⟨f, rfl⟩ := h op (List.mem_cons_self op ops)
    have h1 : runOps (TxOp.stmt f :: ops) s = runOps ops (applyOp s (TxOp.stmt f)) := rfl
    rw [h1, ih _ (fun o ho => h o (List.mem_cons_of_mem _ ho))]
    rfl

theorem init_db_stmts_are_stmts : ∀ op ∈ init_db_stmts, ∃ f, op = TxOp.stmt f := by
  intro op h
  rw [init_db_stmts, createTableOps, seedConstituencyOps] at h
  rcases List.mem_append.mp h with h1 | h2
  · rcases List.mem_append.mp h1 with h3 | h4
    · exact ⟨id, List.eq_of_mem_replicate h3⟩
    · obtain ⟨nm, _, hop⟩ := List.mem_map.mp h4
      refine ⟨fun db =>
        { db with constituencies :=
            insertConstituencyIfAbsent db.constituencies nm "Andhra Pradesh" }, ?_⟩
      rw [← hop]
      rfl
  · refine ⟨fun db => { db with admins := seedAdminRows db.admins }, ?_⟩
    rw [List.mem_singleton.mp h2]
    rfl

/-- C8: `init_db` commits all of its changes as a single unit of work at
the very end: interrupting its operation sequence anywhere before
completion (after any proper prefix of the operations) leaves the
committed database unchanged, and the full run commits exactly the
seeded state - there is no observable partially-initialized state. -/
theorem init_db_single_commit (db : DB) (k : Nat) (hk : k < init_db_ops.length) :
    (runOps (init_db_ops.take k) ⟨db, db⟩).committed = db ∧
    (runOps init_db_ops ⟨db, db⟩).committed
      = { db with constituencies := seedConstituencyRows db.constituencies,
                  admins := seedAdminRows db.admins } := by
  constructor
  · have hlen : init_db_ops.length = init_db_stmts.length + 1 := by
      rw [init_db_ops]
      simp
    have hk2 : k ≤ init_db_stmts.length := by omega
    have htake : init_db_ops.take k = init_db_stmts.take k := by
      rw [init_db_ops]
      exact List.take_append_of_le_length hk2
    rw [htake]
    exact runOps_no_commit _ _
      (fun op ho => init_db_stmts_are_stmts op (List.take_subset k _ ho))
  · exact init_db_eq db

/-- Witness for C8: stopping just before the final commit (after all 33
statements) leaves the empty database committed unchanged; the full run
commits the seeded state. -/
theorem init_db_single_commit_witness :
    (runOps (init_db_ops.take 33) ⟨emptyDB, emptyDB⟩).committed = emptyDB ∧
    (runOps init_db_ops ⟨emptyDB, emptyDB⟩).committed
      = { emptyDB with constituencies := seedConstituencyRows emptyDB.constituencies,
                       admins := seedAdminRows emptyDB.admins } :=
  init_db_single_commit emptyDB 33 (by decide)

/-! ## C10: the lister is read-only -/

/-- C10: `get_constituencies` leaves every table of the database unchanged,
and on a state whose constituencies table is empty it returns the empty
list rather than raising an error. -/
theorem get_constituencies_read_only (db : DB) :
    (get_constituencies_run db).1 = db ∧
    (db.constituencies = [] → (get_constituencies_run db).2 = []) := by
  refine ⟨rfl, fun h => ?_⟩
  simp [get_constituencies_run, get_constituencies, h]

/-- Witness for C10: on the empty database the state is untouched and the
result is the empty list. -/
theorem get_constituencies_read_only_witness :
    (get_constituencies_run emptyDB).1 = emptyDB ∧
    (get_constituencies_run emptyDB).2 = [] :=
  ⟨(get_constituencies_read_only emptyDB).1,
   (get_constituencies_read_only emptyDB).2 rfl⟩

/-! ## C6: legacy scheme rewrite -/

theorem listReplaceFirst_at_head (pat rep rest : List Char) :
    listReplaceFirst pat rep (pat ++ rest) = rep ++ rest := by
  cases hp : pat ++ rest with
  | nil =>
    rcases List.append_eq_nil.mp hp with ⟨h1, h2⟩
    subst h1
    subst h2
    simp [listReplaceFirst]
  | cons c cs =>
    have ht : (pat ++ rest).take pat.length = pat := List.take_left pat rest
    have hd : (pat ++ rest).drop pat.length = rest := List.drop_left pat rest
    rw [hp] at ht hd
    simp only [listReplaceFirst]
    simp [ht, hd]

/-- C6: a connection string beginning with the legacy prefix
`postgres://` is rewritten by replacing only that first occurrence with
`postgresql://`, leaving the remainder of the string (including any later
occurrence of the legacy prefix) unchanged; strings not beginning with the
legacy prefix pass through `normalizeUrl` unmodified. -/
theorem normalizeUrl_spec :
    (∀ rest : String, normalizeUrl ("postgres://" ++ rest) = "postgresql://" ++ rest) ∧
    (∀ s : String, pyStartsWith s "postgres://" = false → normalizeUrl s = s) := by
  constructor
  · intro rest
    obtain ⟨l⟩ := rest
    have hdata : ("postgres://" ++ String.mk l : String).data = "postgres://".data ++ l := rfl
    have hstart : pyStartsWith ("postgres://" ++ String.mk l) "postgres://" = true := by
      unfold pyStartsWith
      rw [hdata, List.take_left]
      simp
    rw [normalizeUrl, if_pos hstart]
    show String.mk (listReplaceFirst "postgres://".data "postgresql://".data
      ("postgres://" ++ String.mk l).data) = _
    rw [hdata, listReplaceFirst_at_head]
    rfl
  · intro s h
    simp [normalizeUrl, h]

/-- Witness for C6: a URL with the legacy prefix (and a second occurrence
of it later in the string) is rewritten only at the front; a URL with a
different scheme is untouched. -/
theorem normalizeUrl_spec_witness :
    normalizeUrl ("postgres://" ++ "u@h/db?next=postgres://x")
        = "postgresql://" ++ "u@h/db?next=postgres://x" ∧
    normalizeUrl "sqlite:///voting_system.db" = "sqlite:///voting_system.db" :=
  ⟨normalizeUrl_spec.1 "u@h/db?next=postgres://x",
   normalizeUrl_spec.2 "sqlite:///voting_system.db" (by decide)⟩

/-! ## C7: the password hash -/

theorem shaRound_length (st : List Nat) (kw : Nat) :
    (shaRound st kw).length = st.length := by
  unfold shaRound
  split <;> simp

theorem foldl_shaRound_length (l : List Nat) :
    ∀ st : List Nat, (l.foldl shaRound st).length = st.length := by
  induction l with
  | nil => intro st; rfl
  | cons k l ih =>
    intro st
    rw [List.foldl_cons, ih, shaRound_length]

theorem compressBlock_length (h block : List Nat) (hh : h.length = 8) :
    (compressBlock h block).length = 8 := by
  unfold compressBlock
  simp [List.length_zip, foldl_shaRound_length, hh]

theorem foldl_compress_length (g : Nat → List Nat) (l : List Nat) :
    ∀ acc : List Nat, acc.length = 8 →
    (l.foldl (fun h i => compressBlock h (g i)) acc).length = 8 := by
  induction l with
  | nil => intro acc h; exact h
  | cons i l ih =>
    intro acc h
    rw [List.foldl_cons]
    exact ih _ (compressBlock_length _ _ h)

theorem sha256Words_length (msg : List Nat) : (sha256Words msg).length = 8 := by
  unfold sha256Words
  exact foldl_compress_length (fun i => ((paddedWords msg).drop (16 * i)).take 16)
    _ sha_h0 rfl

theorem wordToHex_length (w : Nat) : (wordToHex w).length = 8 := by
  simp [wordToHex]

theorem foldr_wordToHex_length (ws : List Nat) :
    (ws.foldr (fun w acc => wordToHex w ++ acc) []).length = 8 * ws.length := by
  induction ws with
  | nil => rfl
  | cons w ws ih =>
    rw [List.foldr_cons, List.length_append, wordToHex_length, ih, List.length_cons]
    omega

theorem hash_password_length (p : String) : (hash_password p).length = 64 := by
  show (List.foldr (fun w acc => wordToHex w ++ acc) []
    (sha256Words (encodeUtf8 p))).length = 64
  rw [foldr_wordToHex_length, sha256Words_length]

theorem hexChar_mem (n : Nat) : hexChar n ∈ hexDigitChars := by
  have h : n % 16 < hexDigitChars.length := Nat.mod_lt n (by decide)
  rw [hexChar, List.getD_eq_getElem hexDigitChars '0' h]
  exact List.getElem_mem h

theorem hash_password_hex (p : String) :
    (hash_password p).data.all (fun c => decide (c ∈ hexDigitChars)) = true := by
  rw [List.all_eq_true]
  show ∀ c ∈ List.foldr (fun w acc => wordToHex w ++ acc) []
    (sha256Words (encodeUtf8 p)), decide (c ∈ hexDigitChars) = true
  generalize sha256Words (encodeUtf8 p) = ws
  induction ws with
  | nil => intro c hc; simp at hc
  | cons w ws ih =>
    intro c hc
    rw [List.foldr_cons] at hc
    rcases List.mem_append.mp hc with h1 | h2
    · rw [wordToHex] at h1
      obtain ⟨i, _, rfl⟩ := List.mem_map.mp h1
      exact decide_eq_true (hexChar_mem _)
    · exact ih c h2

/-- C7: `hash_password` is a deterministic total function on strings
equal to one unsalted, un-iterated SHA-256 pass over the UTF-8 encoded
plaintext; every result is a 64-character digest consisting solely of
hexadecimal digits, and on a representative sample of distinct plaintexts
the digests are pairwise distinct. -/
theorem hash_password_spec :
    (∀ p : String,
      hash_password p = hexDigest (sha256Words (encodeUtf8 p)) ∧
      (hash_password p).length = 64 ∧
      (hash_password p).data.all (fun c => decide (c ∈ hexDigitChars)) = true) ∧
    hash_password "admin123" = hash_password "admin123" ∧
    hash_password "admin123" ≠ hash_password "admin" ∧
    hash_password "admin123" ≠ hash_password "password" ∧
    hash_password "admin" ≠ hash_password "password" ∧
    hash_password "" ≠ hash_password "admin123" :=
  ⟨fun p => ⟨rfl, hash_password_length p, hash_password_hex p⟩,
   rfl, by decide, by decide, by decide, by decide⟩
